import Mathlib

/-!
Shallow embedding of the incremental-sync and CSV-flattening core of the
`strava_project` repository (file `strava.py`), together with theorems
settling the specification's claims about it.

Modelling conventions:
* Python JSON-like values are the inductive `JsonVal`; Python `None` is
  `JsonVal.null`.  Float scalars are carried as their `repr` string
  (`JsonVal.float "1.0"`), which is faithful because the embedded code never
  computes with floats, it only passes them through or stringifies them.
* Python dicts are association lists (`PyDict`) with insertion-order
  semantics: item assignment `d[k] = v` is `dictSet` (overwrite in place if
  the key exists, else append), lookup / `d.get(k)` is `pyGet`.
* The HTTP layer is scripted: a sync run is given the list of page responses
  the server would return to the successive `GET /athlete/activities`
  requests (page 1, page 2, ...).  File writes are modelled by returning the
  rows appended to the CSV and the metadata passed to `save_metadata`.
* `datetime.strptime(activity["start_date"], ...)` (strava.py line 148) is
  modelled as the extraction of a string value at key `"start_date"`; a
  missing key or non-string value raises in Python and is an error here.
  The parsed datetime itself is only printed by the code, so the parse
  result is not modelled.
-/

/-- JSON-like Python values as handled by `append_activity_to_csv`. -/
inductive JsonVal where
  | null
  | bool (b : Bool)
  | int (n : Int)
  | float (lit : String)
  | str (s : String)
  | list (xs : List JsonVal)
  | dict (kvs : List (String × JsonVal))

/-- Python dictionaries with string keys, in insertion order. -/
abbrev PyDict := List (String × JsonVal)

mutual

/-- Python `repr` of a value (`str` and `repr` agree on lists, which is the
only place the embedded code stringifies: `str(value)` at strava.py line 60). -/
def pyRepr : JsonVal → String
  | .null => "None"
  | .bool b => if b then "True" else "False"
  | .int n => toString n
  | .float lit => lit
  | .str s => "'" ++ s ++ "'"
  | .list xs => "[" ++ String.intercalate ", " (pyReprList xs) ++ "]"
  | .dict kvs => "\x7b" ++ String.intercalate ", " (pyReprDict kvs) ++ "\x7d"

/-- Helper of `pyRepr`: `repr` of each element of a list. -/
def pyReprList : List JsonVal → List String
  | [] => []
  | x :: xs => pyRepr x :: pyReprList xs

/-- Helper of `pyRepr`: `repr` of each `key: value` item of a dict. -/
def pyReprDict : List (String × JsonVal) → List String
  | [] => []
  | (k, v) :: rest => ("'" ++ k ++ "': " ++ pyRepr v) :: pyReprDict rest

end

/-- Python dict lookup: value at the (unique) occurrence of a key, if any. -/
def pyGet : PyDict → String → Option JsonVal
  | [], _ => none
  | (k, v) :: rest, key => if key = k then some v else pyGet rest key

/-- Python dict item assignment `d[k] = v`: overwrite in place when the key
exists, otherwise append at the end (insertion order preserved). -/
def dictSet (d : PyDict) (k : String) (v : JsonVal) : PyDict :=
  if d.any (fun p => p.1 = k) then
    d.map (fun p => if p.1 = k then (k, v) else p)
  else
    d ++ [(k, v)]

/-- Loop body of the flattening pass of `append_activity_to_csv`
(strava.py lines 55-62): a nested dict is expanded into `key.sub_key`
entries, a list is replaced by its `str(...)` form, any other value is
copied as is. -/
def flattenStep (fl : PyDict) (kv : String × JsonVal) : PyDict :=
  match kv.2 with
  | .dict kvs =>
      kvs.foldl (fun fl2 sub => dictSet fl2 (kv.1 ++ "." ++ sub.1) sub.2) fl
  | .list xs => dictSet fl kv.1 (.str (pyRepr (.list xs)))
  | v => dictSet fl kv.1 v

/-- Flattening pass of `append_activity_to_csv` (strava.py lines 54-62):
fold `flattenStep` over the activity's items, starting from the empty dict
`flattened = {}`. -/
def flatten (activity : PyDict) : PyDict :=
  activity.foldl flattenStep []

/-- Fixed canonical CSV schema of `append_activity_to_csv`
(strava.py lines 65-78). -/
def required_fields : List String :=
  ["resource_state", "athlete.id", "athlete.resource_state", "name",
   "distance", "moving_time", "elapsed_time", "total_elevation_gain", "type",
   "sport_type", "workout_type", "id", "start_date", "start_date_local",
   "timezone", "utc_offset", "location_city", "location_state",
   "location_country", "achievement_count", "kudos_count", "comment_count",
   "athlete_count", "photo_count", "map.id", "map.summary_polyline",
   "map.resource_state", "trainer", "commute", "manual", "private",
   "visibility", "flagged", "gear_id", "start_latlng", "end_latlng",
   "average_speed", "max_speed", "average_cadence", "average_watts",
   "max_watts", "weighted_average_watts", "device_watts", "kilojoules",
   "has_heartrate", "average_heartrate", "max_heartrate", "heartrate_opt_out",
   "display_hide_heartrate_option", "elev_high", "elev_low", "upload_id",
   "upload_id_str", "external_id", "from_accepted_tag", "pr_count",
   "total_photo_count", "has_kudoed", "suffer_score"]

/-- Header row written by `writer.writeheader()` on file creation
(strava.py lines 88-90): the fieldnames are exactly `required_fields`. -/
def csvHeader : List String := required_fields

/-- Body of the fill loop `if field not in flattened: flattened[field] = None`
for one field (strava.py lines 82-84). -/
def fillStep (d : PyDict) (f : String) : PyDict :=
  if d.any (fun p => p.1 = f) then d else d ++ [(f, JsonVal.null)]

/-- Fill loop of `append_activity_to_csv` (strava.py lines 82-84): give every
canonical field missing from the flattened record the value `None`. -/
def fillMissing (fl : PyDict) : PyDict :=
  required_fields.foldl fillStep fl

/-- Row written by `append_activity_to_csv` (strava.py lines 52-91):
flatten the activity, fill missing canonical fields with `None`, and write
`{field: flattened.get(field) for field in required_fields}` through a
`DictWriter` whose fieldnames are `required_fields`. -/
def append_activity_to_csv (activity : PyDict) : PyDict :=
  let flattened := fillMissing (flatten activity)
  required_fields.map (fun f => (f, (pyGet flattened f).getD JsonVal.null))

/-- Persisted sync progress, the JSON object of `activity_metadata.json`
(`record_count` and `last_activity_date`, strava.py lines 43 and 47). -/
structure Metadata where
  record_count : Nat
  last_activity_date : Option String

/-- Behaviour of `load_metadata` (strava.py lines 39-43): the stored object
when the file exists, else the default of zero records and no date. -/
def load_metadata : Option Metadata → Metadata
  | some m => m
  | none => { record_count := 0, last_activity_date := none }

/-- Response of one `GET /athlete/activities` page request: the HTTP status
code and (for status 200) the decoded JSON body, a list of activity dicts. -/
structure PageResp where
  status : Nat
  body : List PyDict

/-- Mutable state of the fetch loop of `get_activities_for_2024`: the local
`record_count` and `last_activity_date` variables, and the rows appended to
the CSV so far. -/
structure LoopState where
  record_count : Nat
  last_activity_date : Option String
  rows : List PyDict

/-- Inner activity loop of `get_activities_for_2024` (strava.py lines
147-160): for each activity of a page, read its `start_date` (raising if the
key is missing or not a string, modelled as `Except.error` carrying the
rows already written), append the row to the CSV, increment `record_count`,
and set `last_activity_date` to this activity's `start_date`. -/
def processActivities : LoopState → List PyDict → Except LoopState LoopState
  | st, [] => .ok st
  | st, a :: rest =>
    match pyGet a "start_date" with
    | some (.str d) =>
        processActivities
          { record_count := st.record_count + 1,
            last_activity_date := some d,
            rows := st.rows ++ [append_activity_to_csv a] } rest
    | _ => .error st

/-- Outcome of the `while True` page loop of `get_activities_for_2024`. -/
inductive LoopResult where
  /-- The loop exited through a `break` (rate limit or empty page). -/
  | finished (st : LoopState)
  /-- An exception was raised (non-200/429 status, or a bad `start_date`). -/
  | errored (st : LoopState)
  /-- The scripted response list ran out before the loop terminated. -/
  | pagesExhausted (st : LoopState)

/-- Page loop of `get_activities_for_2024` (strava.py lines 136-165),
consuming the scripted responses in page order: status 429 breaks out
(lines 138-140), status 200 with an empty body breaks out (lines 144-145),
status 200 with activities processes them all and requests the next page
(lines 147-163), any other status raises (line 165). -/
def runLoop : List PageResp → LoopState → LoopResult
  | [], st => .pagesExhausted st
  | r :: rest, st =>
    if r.status = 429 then .finished st
    else if r.status = 200 then
      if r.body.isEmpty then .finished st
      else
        match processActivities st r.body with
        | .ok st2 => runLoop rest st2
        | .error st2 => .errored st2
    else .errored st

/-- Observable outcome of one run of `get_activities_for_2024`: whether
`save_metadata` was reached and with what arguments, and the rows appended
to the CSV during the run. -/
inductive SyncOutcome where
  /-- The run reached `save_metadata(record_count, last_activity_date)`
  (strava.py line 167), overwriting the metadata file with `m`. -/
  | saved (m : Metadata) (rows : List PyDict)
  /-- An exception was caught at line 169; the metadata file is untouched. -/
  | noSave (rows : List PyDict)
  /-- The scripted response list was too short to decide the run. -/
  | incomplete (rows : List PyDict)

/-- Run of `get_activities_for_2024` (strava.py lines 124-170) against a
stored metadata file (`none` when absent), a token exchange that succeeds
iff `tokenOk`, and the scripted page responses.  Line 126 loads
`last_activity_date` from the metadata; line 128 sets `record_count = 0`
(the load of the stored count at line 127 is commented out in the source). -/
def get_activities_for_2024 (stored : Option Metadata) (tokenOk : Bool)
    (pages : List PageResp) : SyncOutcome :=
  let metadata := load_metadata stored
  if tokenOk then
    match runLoop pages
        { record_count := 0,
          last_activity_date := metadata.last_activity_date,
          rows := [] } with
    | .finished st =>
        .saved { record_count := st.record_count,
                 last_activity_date := st.last_activity_date } st.rows
    | .errored st => .noSave st.rows
    | .pagesExhausted st => .incomplete st.rows
  else .noSave []

/-- Sample activity with a given `start_date` and id, as returned by the
activities endpoint. -/
def actOn (d : String) (i : Int) : PyDict :=
  [("id", .int i), ("start_date", .str d)]

/-- Splitting the scripted responses: the page loop on `pre ++ rest` runs
`pre` first and continues into `rest` exactly when `pre` was exhausted
without reaching a break or an exception. -/
theorem runLoop_append (pre rest : List PageResp) (st : LoopState) :
    runLoop (pre ++ rest) st =
      match runLoop pre st with
      | .pagesExhausted st2 => runLoop rest st2
      | r => r := by
  induction pre generalizing st with
  | nil => rfl
  | cons p pre ih =>
    by_cases h429 : p.status = 429
    · simp [runLoop, h429]
    · by_cases h200 : p.status = 200
      · by_cases hbody : p.body.isEmpty
        · simp [runLoop, h429, h200, hbody]
        · cases hpa : processActivities st p.body with
          | ok st2 => simp [runLoop, h429, h200, hbody, hpa, ih]
          | error st2 => simp [runLoop, h429, h200, hbody, hpa]
      · simp [runLoop, h429, h200]

/-- Claim C1: evaluation of the code at the claim's scenario.  With a stored
checkpoint whose `last_activity_date` is `"2024-01-02T00:00:00Z"` and an API
returning a single page whose only activity is dated
`"2024-01-01T00:00:00Z"` (lexicographically ≤ the checkpoint date) followed
by an empty page, the run does not stop at the already-seen activity: it
appends its row to the CSV, accumulates one record, and overwrites the
checkpoint — the date-threshold skip of the specification is commented out
in the source (strava.py lines 151-155). -/
theorem c1_stale_activity_still_processed :
    get_activities_for_2024 (some ⟨10, some "2024-01-02T00:00:00Z"⟩) true
      [⟨200, [actOn "2024-01-01T00:00:00Z" 1]⟩, ⟨200, []⟩]
    = .saved ⟨1, some "2024-01-01T00:00:00Z"⟩
        [append_activity_to_csv (actOn "2024-01-01T00:00:00Z" 1)] := by
  rfl

/-- Claim C2: evaluation of the code at the claim's example.  Starting from a
stored checkpoint with `record_count = 10` and one new activity dated
`"2024-01-03T00:00:00Z"`, the saved `record_count` is `1`, not `10 + 1`:
line 128 of strava.py resets `record_count = 0` instead of loading the
stored count (that load, line 127, is commented out). -/
theorem c2_record_count_not_accumulated :
    get_activities_for_2024 (some ⟨10, some "2024-01-02T00:00:00Z"⟩) true
      [⟨200, [actOn "2024-01-03T00:00:00Z" 3]⟩, ⟨200, []⟩]
    = .saved ⟨1, some "2024-01-03T00:00:00Z"⟩
        [append_activity_to_csv (actOn "2024-01-03T00:00:00Z" 3)] := by
  rfl

/-- Claim C3: evaluation of the code on a newest-first page of two new activities.
The persisted `last_activity_date` is `"2024-01-02T00:00:00Z"`, the
`start_date` of the positionally last processed activity (the oldest), not
of the first accumulated one (`"2024-01-03T00:00:00Z"`): line 160 of
strava.py reassigns `last_activity_date` on every loop iteration. -/
theorem c3_saves_last_not_first_date :
    get_activities_for_2024 (some ⟨0, none⟩) true
      [⟨200, [actOn "2024-01-03T00:00:00Z" 3, actOn "2024-01-02T00:00:00Z" 2]⟩,
       ⟨200, []⟩]
    = .saved ⟨2, some "2024-01-02T00:00:00Z"⟩
        [append_activity_to_csv (actOn "2024-01-03T00:00:00Z" 3),
         append_activity_to_csv (actOn "2024-01-02T00:00:00Z" 2)] := by
  rfl

/-- Claim C4: evaluation of the code on a run that accumulates nothing.  With a
stored checkpoint `{record_count := 10, ...}` and an immediately empty first
page, the run writes no rows but still reaches `save_metadata` (strava.py
line 167 is outside the loop and unconditional), rewriting the checkpoint
with `record_count = 0` — the stored count of 10 is destroyed rather than
left unchanged. -/
theorem c4_checkpoint_rewritten_on_empty_run :
    get_activities_for_2024 (some ⟨10, some "2024-01-02T00:00:00Z"⟩) true
      [⟨200, []⟩]
    = .saved ⟨0, some "2024-01-02T00:00:00Z"⟩ [] := by
  rfl

/-- Claim C7: evaluation of the code on a run violating monotonicity.  Starting
from a checkpoint whose `last_activity_date` is `"2024-01-02T00:00:00Z"`,
a page containing one (stale) activity dated `"2024-01-01T00:00:00Z"` makes
the run persist that strictly smaller date: the persisted
`last_activity_date` is lexicographically less than the loaded one, so the
non-decreasing invariant fails on the code. -/
theorem c7_last_activity_date_can_decrease :
    (get_activities_for_2024 (some ⟨10, some "2024-01-02T00:00:00Z"⟩) true
        [⟨200, [actOn "2024-01-01T00:00:00Z" 1]⟩, ⟨200, []⟩]
      = .saved ⟨1, some "2024-01-01T00:00:00Z"⟩
          [append_activity_to_csv (actOn "2024-01-01T00:00:00Z" 1)])
    ∧ ("2024-01-01T00:00:00Z" : String) < "2024-01-02T00:00:00Z" := by
  refine ⟨by rfl, ?_⟩
  rw [String.lt_iff_toList_lt]
  decide

/-- Claim C5: a rate-limited page request ends the run gracefully.  If the scripted
responses consist of pages `pre` that the loop consumes completely (reaching
state `st`) followed by a response with HTTP status 429, the run raises no
exception, ignores every response after the 429, reaches `save_metadata`,
and reports exactly the activities accumulated from the earlier pages:
their count, the last date seen, and their CSV rows. -/
theorem c5_rate_limit_graceful_stop (stored : Option Metadata)
    (pre rest : List PageResp) (b : List PyDict) (st : LoopState)
    (h : runLoop pre
        { record_count := 0,
          last_activity_date := (load_metadata stored).last_activity_date,
          rows := [] } = .pagesExhausted st) :
    get_activities_for_2024 stored true (pre ++ ⟨429, b⟩ :: rest)
      = .saved ⟨st.record_count, st.last_activity_date⟩ st.rows := by
  simp [get_activities_for_2024, runLoop_append, h, runLoop]

/-- Witness activities for the rate-limit scenario: page 1 yields two new
activities, then the second page request returns HTTP 429. -/
def c5Act1 : PyDict := actOn "2024-01-05T00:00:00Z" 5

/-- Second witness activity for the rate-limit scenario. -/
def c5Act2 : PyDict := actOn "2024-01-04T00:00:00Z" 4

/-- Witness for C5: after page 1 yields 2 new activities and the second page
request returns HTTP 429, the run completes successfully reporting exactly
those 2 activities. -/
theorem c5_rate_limit_graceful_stop_witness :
    get_activities_for_2024 (some ⟨0, none⟩) true
        ([⟨200, [c5Act1, c5Act2]⟩] ++ ⟨429, []⟩ :: [])
      = .saved ⟨2, some "2024-01-04T00:00:00Z"⟩
          [append_activity_to_csv c5Act1, append_activity_to_csv c5Act2] :=
  c5_rate_limit_graceful_stop (some ⟨0, none⟩) [⟨200, [c5Act1, c5Act2]⟩] [] []
    ⟨2, some "2024-01-04T00:00:00Z",
      [append_activity_to_csv c5Act1, append_activity_to_csv c5Act2]⟩
    (by rfl)

/-- Claim C6: any non-200, non-429 status aborts the run without saving.  If the
scripted responses consist of pages `pre` that the loop consumes completely
and then a response whose status is neither 200 nor 429, the run raises
(strava.py line 165), the exception is caught at line 169, and
`save_metadata` is never reached: the outcome carries the rows already
appended but the checkpoint file is not written, so the next run resumes
from the same stored checkpoint. -/
theorem c6_fetch_error_no_checkpoint_write (stored : Option Metadata)
    (pre rest : List PageResp) (b : List PyDict) (st : LoopState) (code : Nat)
    (h : runLoop pre
        { record_count := 0,
          last_activity_date := (load_metadata stored).last_activity_date,
          rows := [] } = .pagesExhausted st)
    (h200 : code ≠ 200) (h429 : code ≠ 429) :
    get_activities_for_2024 stored true (pre ++ ⟨code, b⟩ :: rest)
      = .noSave st.rows := by
  simp [get_activities_for_2024, runLoop_append, h, runLoop, h200, h429]

/-- Witness activity for the fetch-error scenario. -/
def c6Act : PyDict := actOn "2024-02-01T00:00:00Z" 7

/-- Witness for C6: page 1 yields one activity, the second page request
returns HTTP 500, and the run ends without writing the checkpoint. -/
theorem c6_fetch_error_no_checkpoint_write_witness :
    get_activities_for_2024 (some ⟨3, some "2023-12-31T00:00:00Z"⟩) true
        ([⟨200, [c6Act]⟩] ++ ⟨500, []⟩ :: [])
      = .noSave [append_activity_to_csv c6Act] :=
  c6_fetch_error_no_checkpoint_write (some ⟨3, some "2023-12-31T00:00:00Z"⟩)
    [⟨200, [c6Act]⟩] [] [] 
    ⟨1, some "2024-02-01T00:00:00Z", [append_activity_to_csv c6Act]⟩ 500
    (by rfl) (by decide) (by decide)

/-- Key list (column names) of a Python dict, in order. -/
def keys (d : PyDict) : List String := d.map Prod.fst

/-- Modelled from the spec wording of the flatten contract (spec section 4.4):
the columns contributed by one top-level field — a nested mapping expands
each inner key as outer.inner with the inner value verbatim, a list becomes
its order-preserving string serialization under the outer key, and any other
value is kept unchanged under the outer key. -/
def expandField : String × JsonVal → PyDict
  | (k, .dict kvs) => kvs.map (fun sub => (k ++ "." ++ sub.1, sub.2))
  | (k, .list xs) => [(k, .str (pyRepr (.list xs)))]
  | (k, v) => [(k, v)]

/-- Modelled from the spec wording of the flatten contract (spec section 4.4):
the flattened row is the concatenation of the columns contributed by each
top-level field, in record order. -/
def flattenSpec : PyDict → PyDict
  | [] => []
  | kv :: rest => expandField kv ++ flattenSpec rest

/-- Assigning a key absent from a dict appends the pair at the end. -/
theorem dictSet_of_fresh (d : PyDict) (k : String) (v : JsonVal)
    (h : ∀ p ∈ d, p.1 ≠ k) : dictSet d k v = d ++ [(k, v)] := by
  have hany : (d.any (fun p => p.1 = k)) = false := by
    simp only [List.any_eq_false, decide_eq_true_eq]
    exact h
  simp [dictSet, hany]

/-- Folding fresh, pairwise-distinct key assignments over a dict appends the
corresponding pairs in order. -/
theorem foldl_dictSet_fresh (k : String) (kvs : List (String × JsonVal)) :
    ∀ (fl : PyDict),
      (∀ sub ∈ kvs, ∀ p ∈ fl, p.1 ≠ k ++ "." ++ sub.1) →
      (kvs.map (fun sub => k ++ "." ++ sub.1)).Nodup →
      kvs.foldl (fun fl2 sub => dictSet fl2 (k ++ "." ++ sub.1) sub.2) fl
        = fl ++ kvs.map (fun sub => (k ++ "." ++ sub.1, sub.2)) := by
  induction kvs with
  | nil => intro fl _ _; simp
  | cons sub kvs ih =>
    intro fl hfresh hnd
    rw [List.foldl_cons,
      dictSet_of_fresh _ _ _ (fun p hp => hfresh sub (by simp) p hp)]
    rw [ih (fl ++ [(k ++ "." ++ sub.1, sub.2)]) ?_ ?_]
    · simp
    · intro s hs p hp
      rcases List.mem_append.mp hp with h1 | h2
      · exact hfresh s (by simp [hs]) p h1
      · simp only [List.mem_singleton] at h2
        subst h2
        intro hcontra
        have hhead : (k ++ "." ++ sub.1) ∉ kvs.map (fun s => k ++ "." ++ s.1) :=
          (List.nodup_cons.mp (by simpa using hnd)).1
        have heq : k ++ "." ++ sub.1 = k ++ "." ++ s.1 := hcontra
        exact hhead (by rw [heq]; exact List.mem_map_of_mem _ hs)
    · exact (List.nodup_cons.mp (by simpa using hnd)).2

/-- Column names contributed by a nested-mapping field. -/
theorem keys_expandField_dict (k : String) (kvs : List (String × JsonVal)) :
    keys (expandField (k, .dict kvs)) = kvs.map (fun sub => k ++ "." ++ sub.1) := by
  simp [keys, expandField, List.map_map, Function.comp]

/-- One step of the source's flatten loop agrees with appending the columns
of `expandField` when those columns are fresh and distinct. -/
theorem flattenStep_fresh (fl : PyDict) (kv : String × JsonVal)
    (hnd : (keys (expandField kv)).Nodup)
    (hfresh : ∀ key ∈ keys (expandField kv), ∀ p ∈ fl, p.1 ≠ key) :
    flattenStep fl kv = fl ++ expandField kv := by
  obtain ⟨k, v⟩ := kv
  cases v with
  | dict kvs =>
    show kvs.foldl (fun fl2 sub => dictSet fl2 (k ++ "." ++ sub.1) sub.2) fl
      = fl ++ kvs.map (fun sub => (k ++ "." ++ sub.1, sub.2))
    apply foldl_dictSet_fresh
    · intro sub hsub p hp
      exact hfresh (k ++ "." ++ sub.1)
        (by rw [keys_expandField_dict]; exact List.mem_map_of_mem _ hsub) p hp
    · rw [keys_expandField_dict] at hnd
      exact hnd
  | list xs =>
    exact dictSet_of_fresh fl k _
      (fun p hp => hfresh k (by simp [keys, expandField]) p hp)
  | null =>
    exact dictSet_of_fresh fl k _
      (fun p hp => hfresh k (by simp [keys, expandField]) p hp)
  | bool b =>
    exact dictSet_of_fresh fl k _
      (fun p hp => hfresh k (by simp [keys, expandField]) p hp)
  | int n =>
    exact dictSet_of_fresh fl k _
      (fun p hp => hfresh k (by simp [keys, expandField]) p hp)
  | float lit =>
    exact dictSet_of_fresh fl k _
      (fun p hp => hfresh k (by simp [keys, expandField]) p hp)
  | str s =>
    exact dictSet_of_fresh fl k _
      (fun p hp => hfresh k (by simp [keys, expandField]) p hp)

/-- Keys of a concatenation of dicts. -/
theorem keys_append (d e : PyDict) : keys (d ++ e) = keys d ++ keys e := by
  simp [keys]

/-- Folding the source's flatten loop from any prefix agrees with the
spec-side expansion when all resulting column names are distinct. -/
theorem foldl_flattenStep_eq (a : PyDict) : ∀ (fl : PyDict),
    (keys (fl ++ flattenSpec a)).Nodup →
    a.foldl flattenStep fl = fl ++ flattenSpec a := by
  induction a with
  | nil => intro fl _; simp [flattenSpec]
  | cons kv a ih =>
    intro fl h
    have hsplit : keys (fl ++ flattenSpec (kv :: a))
        = keys fl ++ keys (expandField kv) ++ keys (flattenSpec a) := by
      simp [flattenSpec, keys_append, List.append_assoc]
    rw [hsplit] at h
    have h2 : ((keys fl ++ keys (expandField kv)) ++ keys (flattenSpec a)).Nodup := by
      simpa [List.append_assoc] using h
    have hfl_exp : (keys fl ++ keys (expandField kv)).Nodup := h2.of_append_left
    have hstep : flattenStep fl kv = fl ++ expandField kv := by
      apply flattenStep_fresh
      · exact hfl_exp.of_append_right
      · intro key hkey p hp
        have hdisj := List.disjoint_of_nodup_append hfl_exp
        intro hcontra
        exact hdisj (hcontra ▸ List.mem_map_of_mem Prod.fst hp) hkey
    rw [List.foldl_cons, hstep, ih (fl ++ expandField kv) ?_]
    · simp [flattenSpec, List.append_assoc]
    · rw [keys_append, keys_append]
      simpa [List.append_assoc] using h

/-- Refinement: on any record whose expanded column names are pairwise
distinct, the source's flatten loop produces exactly the spec-side
expansion. -/
theorem flatten_eq_flattenSpec (a : PyDict)
    (h : (keys (flattenSpec a)).Nodup) : flatten a = flattenSpec a := by
  have hres := foldl_flattenStep_eq a [] (by simpa using h)
  simpa [flatten] using hres

/-- Lookup in a dict with distinct keys finds any member pair. -/
theorem pyGet_eq_some_of_mem (d : PyDict) (k : String) (v : JsonVal)
    (hnd : (keys d).Nodup) (hmem : (k, v) ∈ d) : pyGet d k = some v := by
  induction d with
  | nil => cases hmem
  | cons p d ih =>
    cases hmem with
    | head => simp [pyGet]
    | tail _ hmem =>
      have hk : k ∈ keys d := List.mem_map_of_mem Prod.fst hmem
      have hne : k ≠ p.1 := by
        intro hcontra
        exact (List.nodup_cons.mp (by simpa [keys] using hnd)).1 (hcontra ▸ hk)
      obtain ⟨p1, p2⟩ := p
      simp only [pyGet, if_neg hne]
      exact ih (by simpa [keys] using (List.nodup_cons.mp
        (by simpa [keys] using hnd)).2) hmem

/-- Columns contributed by a member field are columns of the expansion. -/
theorem mem_flattenSpec (a : PyDict) (kv p : String × JsonVal)
    (hkv : kv ∈ a) (hp : p ∈ expandField kv) : p ∈ flattenSpec a := by
  induction a with
  | nil => cases hkv
  | cons kv2 a ih =>
    cases hkv with
    | head => exact List.mem_append.mpr (Or.inl hp)
    | tail _ hkv => exact List.mem_append.mpr (Or.inr (ih hkv))

/-- Claim C8: the source's flatten agrees with the specification's field
mapping.  On any record whose expanded column names are pairwise distinct,
flattening maps a nested-mapping field to one outer.inner column per inner
key (inner value verbatim), a list field to its order-preserving string
serialization, and any other field to itself — i.e. `flatten` coincides
with `flattenSpec`, the direct transcription of the spec's wording. -/
theorem c8_flatten_matches_spec_mapping (a : PyDict)
    (hnd : (keys (flattenSpec a)).Nodup) : flatten a = flattenSpec a :=
  flatten_eq_flattenSpec a hnd

/-- Example record of the spec's flatten round-trip property. -/
def c8Record : PyDict :=
  [("id", .int 1), ("map", .dict [("id", .str "m1"), ("polyline", .str "ab")]),
   ("start_latlng", .list [.float "1.0", .float "2.0"])]

/-- Witness for C8: the spec's example record flattens to exactly the
columns id=1, map.id="m1", map.polyline="ab", start_latlng="[1.0, 2.0]". -/
theorem c8_flatten_matches_spec_mapping_witness :
    flatten c8Record
      = [("id", .int 1), ("map.id", .str "m1"), ("map.polyline", .str "ab"),
         ("start_latlng", .str "[1.0, 2.0]")] :=
  (c8_flatten_matches_spec_mapping c8Record (by decide)).trans (by rfl)

/-- Claim C10: flattening is exactly one level deep.  On any record whose
expanded column names are pairwise distinct: the inner value of a
nested-mapping field is copied verbatim into its outer.inner column — even
when that inner value is itself a mapping or a list, it is neither expanded
further nor stringified — while a top-level list field is stringified under
its own key (its elements are serialized inside the string, not expanded
into columns). -/
theorem c10_flatten_one_level_deep (a : PyDict)
    (hnd : (keys (flattenSpec a)).Nodup) :
    (∀ k kvs sk sv, (k, JsonVal.dict kvs) ∈ a → (sk, sv) ∈ kvs →
       pyGet (flatten a) (k ++ "." ++ sk) = some sv) ∧
    (∀ k xs, (k, JsonVal.list xs) ∈ a →
       pyGet (flatten a) k = some (.str (pyRepr (.list xs)))) := by
  rw [flatten_eq_flattenSpec a hnd]
  constructor
  · intro k kvs sk sv hmem hsub
    apply pyGet_eq_some_of_mem _ _ _ hnd
    exact mem_flattenSpec a (k, .dict kvs) _ hmem
      (List.mem_map_of_mem (fun sub => (k ++ "." ++ sub.1, sub.2)) hsub)
  · intro k xs hmem
    apply pyGet_eq_some_of_mem _ _ _ hnd
    exact mem_flattenSpec a (k, .list xs) _ hmem (by simp [expandField])

/-- Record whose nested mapping holds a mapping-valued and a list-valued
inner field, exercising the one-level-deep behaviour. -/
def c10Record : PyDict :=
  [("m", .dict [("inner", .dict [("x", .int 1)]), ("lst", .list [.int 2])]),
   ("tl", .list [.int 3])]

/-- Witness for C10: inner mapping and list values under a nested mapping
land verbatim in their dotted columns, while a top-level list is
stringified. -/
theorem c10_flatten_one_level_deep_witness :
    pyGet (flatten c10Record) "m.inner" = some (.dict [("x", .int 1)]) ∧
    pyGet (flatten c10Record) "m.lst" = some (.list [.int 2]) ∧
    pyGet (flatten c10Record) "tl" = some (.str (pyRepr (.list [.int 3]))) :=
  ⟨(c10_flatten_one_level_deep c10Record (by decide)).1 "m"
      [("inner", .dict [("x", .int 1)]), ("lst", .list [.int 2])]
      "inner" (.dict [("x", .int 1)]) (by simp [c10Record]) (by simp),
   (c10_flatten_one_level_deep c10Record (by decide)).1 "m"
      [("inner", .dict [("x", .int 1)]), ("lst", .list [.int 2])]
      "lst" (.list [.int 2]) (by simp [c10Record]) (by simp),
   (c10_flatten_one_level_deep c10Record (by decide)).2 "tl" [.int 3]
      (by simp [c10Record])⟩

/-- Lookup distributes over dict concatenation, first occurrence winning. -/
theorem pyGet_append (d e : PyDict) (k : String) :
    pyGet (d ++ e) k
      = match pyGet d k with
        | some v => some v
        | none => pyGet e k := by
  induction d with
  | nil => simp [pyGet]
  | cons p d ih =>
    obtain ⟨p1, p2⟩ := p
    by_cases h : k = p1
    · simp [pyGet, h]
    · simp [pyGet, h, ih]

/-- Membership test of the fill loop agrees with lookup failure. -/
theorem any_key_eq_false_iff (d : PyDict) (k : String) :
    (d.any (fun p => p.1 = k)) = false ↔ pyGet d k = none := by
  induction d with
  | nil => simp [pyGet]
  | cons p d ih =>
    obtain ⟨p1, p2⟩ := p
    by_cases h : k = p1
    · subst h
      simp [pyGet]
    · simp [pyGet, h, ih, Ne.symm h]

/-- One step of the fill loop: a present key keeps its value, the filled key
becomes `None` when it was absent, other absent keys stay absent. -/
theorem pyGet_fillStep (d : PyDict) (f k : String) :
    pyGet (fillStep d f) k
      = match pyGet d k with
        | some v => some v
        | none => if k = f then some JsonVal.null else none := by
  unfold fillStep
  by_cases hany : (d.any (fun p => p.1 = f)) = true
  · rw [if_pos hany]
    cases hget : pyGet d k with
    | some v => simp
    | none =>
      have hf : ¬ pyGet d f = none := by
        intro hcontra
        rw [← any_key_eq_false_iff] at hcontra
        rw [hany] at hcontra
        cases hcontra
      by_cases hkf : k = f
      · subst hkf
        exact absurd hget hf
      · simp [hkf]
  · rw [if_neg hany]
    rw [pyGet_append]
    cases pyGet d k with
    | some v => simp
    | none => simp [pyGet]

/-- Folding the fill loop over a field list: present keys keep their value,
absent listed keys become `None`, all other keys stay absent. -/
theorem pyGet_fillFold (fields : List String) : ∀ (fl : PyDict) (k : String),
    pyGet (fields.foldl fillStep fl) k
      = match pyGet fl k with
        | some v => some v
        | none => if fields.contains k then some JsonVal.null else none := by
  induction fields with
  | nil =>
    intro fl k
    cases hget : pyGet fl k <;> simp [hget]
  | cons f fields ih =>
    intro fl k
    rw [List.foldl_cons, ih, pyGet_fillStep]
    cases hget : pyGet fl k with
    | some v => simp
    | none =>
      by_cases hkf : k = f
      · subst hkf
        simp [List.contains_cons]
      · simp [hkf, List.contains_cons]

/-- Lookup in a dict built by pairing each field with a computed value. -/
theorem pyGet_map_pair (fields : List String) (g : String → JsonVal) (k : String) :
    pyGet (fields.map (fun f => (f, g f))) k
      = if fields.contains k then some (g k) else none := by
  induction fields with
  | nil => simp [pyGet]
  | cons f fields ih =>
    by_cases h : k = f
    · subst h
      simp [pyGet, List.contains_cons]
    · simp [pyGet, h, ih, List.contains_cons]

/-- Claim C9: every CSV row aligns to the fixed canonical schema.  For every
record, the written row's column list is exactly `csvHeader` (the
predeclared ordered canonical field list written as the file's header), a
canonical field absent from the flattened record is written as the
null cell, a present one keeps its flattened value, and any flattened field
outside the canonical list is dropped (lookup of a non-canonical key in the
row fails), so all rows have identical shape. -/
theorem c9_rows_align_to_canonical_schema (a : PyDict) :
    (keys (append_activity_to_csv a) = csvHeader) ∧
    (∀ f, pyGet (append_activity_to_csv a) f
        = if required_fields.contains f
          then some ((pyGet (flatten a) f).getD JsonVal.null)
          else none) := by
  constructor
  · simp [append_activity_to_csv, keys, csvHeader, List.map_map,
      Function.comp_def]
  · intro f
    show pyGet (required_fields.map
        (fun f2 => (f2, (pyGet (fillMissing (flatten a)) f2).getD JsonVal.null))) f = _
    rw [pyGet_map_pair]
    by_cases h : required_fields.contains f
    · rw [if_pos h, if_pos h]
      have hfold := pyGet_fillFold required_fields (flatten a) f
      rw [show fillMissing (flatten a)
            = required_fields.foldl fillStep (flatten a) from rfl]
      rw [hfold]
      cases pyGet (flatten a) f with
      | some v => simp
      | none =>
        have hmem : f ∈ required_fields := by simpa using h
        simp [hmem]
    · rw [if_neg h, if_neg h]
